import Mathlib

/-!
Verification development for the systemd-journal filter of fail2ban
(`fail2ban/server/filtersystemd.py`).

The development shallowly embeds the parts of `FilterSystemd` that the
specification talks about:

* the journal match-set management (`_addJournalMatches`, `addJournalMatch`,
  `resetJournalMatches`, `delJournalMatch`, `status`), together with a model of
  the store-side filter state as the ordered list of `add_match` /
  `add_disjunction` calls currently registered with the journal reader;
* the log-entry normalisation `formatJournalEntry`;
* the startup seek logic (`seekToTime` plus the seek/step-back prologue of
  `run`), over a model of the external journal store's cursor;
* the drain/ticket phases of the main loop `run`.

Conventions of the embedding:

* Python exceptions are modelled with an explicit success flag (`Bool`) or
  `Option`/`Except`: `(false, st)` plays the role of "raised, leaving state
  `st`".
* The validity check that the journal store applies to a match token inside
  `add_match` (which raises `ValueError` on an invalid token) is abstracted
  into a parameter `valid : String → Bool`.
* `datetime` values coming out of the journal are represented by their epoch
  seconds (`sec`, the value of `time.mktime(date.timetuple())`) and their
  microsecond component (`usec`); floats are modelled as exact rationals.
* Monotonic timestamps (`timedelta` values) are represented by their total
  integer number of microseconds.
* Text decoding (`uni_decode`) is the identity in the model: field values are
  already Lean strings.
-/

/-- One registration call against the journal reader's filter state:
`m tok` is `add_match(tok)`, `d` is `add_disjunction()`. -/
inductive JOp where
  | m (tok : String)
  | d
  deriving DecidableEq, Repr

/-- State of a `FilterSystemd` instance as far as match management is
concerned: `store` is the sequence of filter registrations currently held by
the journal reader (`self.__journal`), `matches` is the in-memory list
`self.__matches` of match groups. -/
structure FState where
  store : List JOp
  __matches : List (List String)
  deriving DecidableEq, Repr

/-- The freshly constructed filter: no store-side filters, `self.__matches = []`. -/
def FState.empty : FState := ⟨[], []⟩

/-- The inner element loop of `_addJournalMatches`: call
`self.__journal.add_match(match_element)` for each element of one group.
Returns the success flag and the store state reached (on failure, the state
after the elements accepted so far — the exception propagates with the store
already mutated). -/
def addGroupOps (valid : String → Bool) (store : List JOp) : List String → Bool × List JOp
  | [] => (true, store)
  | t :: ts => if valid t then addGroupOps valid (store ++ [JOp.m t]) ts else (false, store)

/-- The outer group loop of `_addJournalMatches`: for each group, register its
elements and then call `add_disjunction()`. -/
def addGroupsOps (valid : String → Bool) (store : List JOp) : List (List String) → Bool × List JOp
  | [] => (true, store)
  | g :: gs =>
    match addGroupOps valid store g with
    | (true, s) => addGroupsOps valid (s ++ [JOp.d]) gs
    | (false, s) => (false, s)

/-- Embedding of `FilterSystemd._addJournalMatches(matches)`: if
`self.__matches` is non-empty, first `add_disjunction()`; then register every
group (elements, then a disjunction); on full success extend `self.__matches`
by the new groups, otherwise leave it unchanged (the copy `newMatches` is only
appended after the loop). -/
def _addJournalMatches (valid : String → Bool) (st : FState) (ms : List (List String)) :
    Bool × FState :=
  let base := if st.__matches = [] then st.store else st.store ++ [JOp.d]
  let r := addGroupsOps valid base ms
  (r.1, if r.1 then ⟨r.2, st.__matches ++ ms⟩ else ⟨r.2, st.__matches⟩)

/-- Embedding of `FilterSystemd.resetJournalMatches()`: `flush_matches()` (store
becomes empty), `self.__matches` is emptied, then `_addJournalMatches` replays
the saved copy of the old `self.__matches`. -/
def resetJournalMatches (valid : String → Bool) (st : FState) : Bool × FState :=
  _addJournalMatches valid ⟨[], []⟩ st.__matches

/-- Accumulator loop splitting a flat match specification at each `"+"`
sentinel, as done at the top of `addJournalMatch`. -/
def splitPlusAux (cur : List String) (acc : List (List String)) :
    List String → List (List String)
  | [] => acc ++ [cur]
  | e :: rest =>
    if e = "+" then splitPlusAux [] (acc ++ [cur]) rest
    else splitPlusAux (cur ++ [e]) acc rest

/-- The `newMatches` computed by `addJournalMatch` from a flat match spec:
groups split at each `"+"` token (starting from `[[]]`). -/
def splitPlus (mspec : List String) : List (List String) := splitPlusAux [] [] mspec

/-- Embedding of `FilterSystemd.addJournalMatch(match)`: split the spec at
`"+"`, try `_addJournalMatches`; on `ValueError` call `resetJournalMatches()`
and re-raise (the result flag stays `false` even if the reset succeeds). -/
def addJournalMatch (valid : String → Bool) (st : FState) (mspec : List String) :
    Bool × FState :=
  let r := _addJournalMatches valid st (splitPlus mspec)
  if r.1 then r else (false, (resetJournalMatches valid r.2).2)

/-- Embedding of `FilterSystemd.delJournalMatch(match)`: if the group occurs in
`self.__matches`, delete its first occurrence (`del self.__matches[...index(match)]`)
and rebuild via `resetJournalMatches()`; otherwise raise `ValueError("Match not
found")` leaving the state untouched. -/
def delJournalMatch (valid : String → Bool) (st : FState) (mspec : List String) :
    Bool × FState :=
  if mspec ∈ st.__matches then
    resetJournalMatches valid ⟨st.store, st.__matches.erase mspec⟩
  else (false, st)

/-- Embedding of `FilterSystemd.getJournalMatch()`. -/
def getJournalMatch (st : FState) : List (List String) := st.__matches

/-- Python `sep.join(l)`. -/
def pyJoin (sep : String) : List String → String
  | [] => ""
  | [x] => x
  | x :: y :: rest => x ++ sep ++ pyJoin sep (y :: rest)

/-- The "Journal matches" line of `FilterSystemd.status()`: groups joined by
`" + "`, elements inside a group joined by `" "`. -/
def statusMatches (st : FState) : String :=
  pyJoin " + " (st.__matches.map (fun g => pyJoin " " g))

/-- One externally issued match-set mutation. -/
inductive MOp where
  | add (mspec : List String)
  | del (mspec : List String)
  deriving DecidableEq, Repr

/-- Run a sequence of mutations from a given state; `none` as soon as one of
them raises (so `some` means every operation in the sequence succeeded). -/
def runOps (valid : String → Bool) : FState → List MOp → Option FState
  | st, [] => some st
  | st, MOp.add ms :: rest =>
    match addJournalMatch valid st ms with
    | (true, st') => runOps valid st' rest
    | (false, _) => none
  | st, MOp.del ms :: rest =>
    match delJournalMatch valid st ms with
    | (true, st') => runOps valid st' rest
    | (false, _) => none

/-- The store-side registration sequence produced by replaying a list of match
groups into an empty journal reader (each group: its elements via `add_match`,
then one `add_disjunction`); this is what `_addJournalMatches` performs when
`self.__matches` starts empty. -/
def replayOps : List (List String) → List JOp
  | [] => []
  | g :: gs => g.map JOp.m ++ [JOp.d] ++ replayOps gs

/-- Observable disjunctive-normal-form structure of a registration sequence:
the sequence of non-empty conjunctive groups delimited by disjunctions (an
`add_disjunction` with no match registered since the previous one contributes
no group). `cur` is the group currently being collected. -/
def obsAux : List JOp → List String → List (List String)
  | [], cur => if cur = [] then [] else [cur]
  | JOp.m t :: rest, cur => obsAux rest (cur ++ [t])
  | JOp.d :: rest, cur => (if cur = [] then [] else [cur]) ++ obsAux rest []

/-- Observable group structure of a store-side registration sequence. -/
def obsGroups (ops : List JOp) : List (List String) := obsAux ops []

/-- A registration sequence is closed when it is empty or ends with a
disjunction; every sequence the filter actually installs is closed. -/
def ClosedOps (ops : List JOp) : Prop := ops = [] ∨ ∃ a, ops = a ++ [JOp.d]

/-- Invariant tying the store-side filter state to the in-memory match list. -/
def MatchInv (st : FState) : Prop :=
  ClosedOps st.store ∧ obsGroups st.store = st.__matches.filter (fun g => !g.isEmpty)

/-- A validity predicate accepting every token (a store that rejects nothing). -/
def validAll : String → Bool := fun _ => true

/-- A validity predicate rejecting exactly the token `"bad"` (a store whose
`add_match` raises `ValueError` on that token). -/
def validEx : String → Bool := fun t => t != "bad"

/-! ### Entry formatting (`formatJournalEntry`) -/

/-- A journal `datetime`: `sec` is `time.mktime(date.timetuple())` (whole epoch
seconds), `usec` is `date.microsecond`. -/
structure JTime where
  sec : Nat
  usec : Nat
  deriving DecidableEq, Repr

/-- The `MESSAGE` field of a journal entry: either a single string or a list of
strings (Python `isinstance(msg, list)`). -/
inductive Msg where
  | str (s : String)
  | list (l : List String)
  deriving DecidableEq, Repr

/-- A raw journal entry, restricted to the fields `formatJournalEntry` reads.
`none` means the field is absent from the entry dict. Monotonic timestamps are
in integer microseconds; `monotonic` models the `timedelta` component of the
`__MONOTONIC_TIMESTAMP` pair (the code takes `[0]` of it). -/
structure RawEntry where
  hostname : Option String
  syslogIdentifier : Option String
  comm : Option String
  syslogPid : Option Int
  pid : Option Int
  sourceMonotonic : Option Nat
  monotonic : Option Nat
  message : Option Msg
  sourceRealtime : Option JTime
  realtime : Option JTime
  deriving DecidableEq, Repr

/-- Python truthiness filter for an optional string field (`if v:` — absent or
empty both count as false). -/
def truthyStr : Option String → Option String
  | some s => if s = "" then none else some s
  | none => none

/-- Python truthiness filter for an optional integer field (`if v:` — absent or
zero both count as false). -/
def truthyInt : Option Int → Option Int
  | some n => if n = 0 then none else some n
  | none => none

/-- Render the identifier element from its base string: append `"[%i]" % pid`
for the first truthy pid among `SYSLOG_PID` and `_PID`, then the trailing
colon. -/
def identRender (s : String) (e : RawEntry) : String :=
  (match truthyInt e.syslogPid with
   | some p => s ++ "[" ++ toString p ++ "]"
   | none =>
     match truthyInt e.pid with
     | some p => s ++ "[" ++ toString p ++ "]"
     | none => s) ++ ":"

/-- The identifier element of the formatted line: `SYSLOG_IDENTIFIER` if
truthy, else `_COMM` if truthy, else no element. -/
def identElement (e : RawEntry) : Option String :=
  match truthyStr e.syslogIdentifier with
  | some s => some (identRender s e)
  | none =>
    match truthyStr e.comm with
    | some s => some (identRender s e)
    | none => none

/-- Monotonic timestamp chosen for a `kernel:` entry:
`_SOURCE_MONOTONIC_TIMESTAMP` if that key is present, else the first component
of `__MONOTONIC_TIMESTAMP`; `none` models the `TypeError` raised by
`logentry.get('__MONOTONIC_TIMESTAMP')[0]` when that key is absent too. -/
def kernelMono (e : RawEntry) : Option Nat :=
  match e.sourceMonotonic with
  | some mo => some mo
  | none => e.monotonic

/-- Left-pad a string to width `w` with character `c`. -/
def padLeftC (c : Char) (w : Nat) (s : String) : String :=
  String.mk (List.replicate (w - s.length) c) ++ s

/-- Python `"%12.6f" % (usec / 1e6)` for an exact integer number of
microseconds: six fractional digits, the whole thing left-padded with spaces to
width 12. -/
def fmtF12_6 (usec : Nat) : String :=
  padLeftC ' ' 12 (toString (usec / 1000000) ++ "." ++ padLeftC '0' 6 (toString (usec % 1000000)))

/-- The message element: `logentry.get('MESSAGE','')`, space-joining list
messages. -/
def msgElement (e : RawEntry) : String :=
  match e.message with
  | none => ""
  | some (Msg.str s) => s
  | some (Msg.list l) => pyJoin " " l

/-- The hostname element of the formatted line: `_HOSTNAME` when truthy. -/
def hostElements (e : RawEntry) : List String :=
  match truthyStr e.hostname with
  | some h => [h]
  | none => []

/-- The `logelements` list built by `formatJournalEntry`: optional hostname,
optional identifier element (followed, when it renders exactly `"kernel:"`, by
the bracketed monotonic timestamp), then the message element. `none` models
the `TypeError` raised on a kernel entry with no monotonic timestamp field at
all. -/
def logElements (e : RawEntry) : Option (List String) :=
  let hostEls : List String := hostElements e
  match identElement e with
  | none => some (hostEls ++ [msgElement e])
  | some ident =>
    if ident = "kernel:" then
      match kernelMono e with
      | some mo => some (hostEls ++ [ident, "[" ++ fmtF12_6 mo ++ "]", msgElement e])
      | none => none
    else some (hostEls ++ [ident, msgElement e])

/-- The entry's effective date: `logentry.get('_SOURCE_REALTIME_TIMESTAMP',
logentry.get('__REALTIME_TIMESTAMP'))`. -/
def getDate (e : RawEntry) : Option JTime :=
  match e.sourceRealtime with
  | some dt => some dt
  | none => e.realtime

/-- Embedding of `FilterSystemd.formatJournalEntry(logentry)`: the formatted
log line (`" ".join(logelements)`) and the numeric timestamp
`time.mktime(date.timetuple()) + date.microsecond/1.0E6`. `none` models the
exceptions raised on a kernel entry with no monotonic field and on an entry
with no realtime field at all (`date.isoformat()` on `None`). -/
def formatJournalEntry (e : RawEntry) : Option (String × ℚ) :=
  match logElements e with
  | none => none
  | some els =>
    match getDate e with
    | none => none
    | some dt => some (pyJoin " " els, (dt.sec : ℚ) + (dt.usec : ℚ) / 1000000)

/-! ### Journal cursor model and the startup seek

The journal store itself is an external collaborator (python-systemd's
`journal.Reader`); it is modelled from the spec's JournalCursor contract
(spec section 4.3): entries are a time-ordered list of realtime timestamps,
`seek_realtime(t)` places a location marker before the first entry with
timestamp at or after `t`, `get_next` / `get_previous` move one entry forward
or backward from the current position, returning no entry (an empty dict, not
an exception) when there is nothing there. -/

/-- Cursor position of the journal reader: `loc i` is a location marker just
before entry `i` (the next forward read returns entry `i`); `onEntry i` means
the reader currently sits on entry `i`. -/
inductive JPos where
  | loc (i : Nat)
  | onEntry (i : Nat)
  deriving DecidableEq, Repr

/-- Modelled from the spec: index of the first journal entry with timestamp at
or after `t` (`js.length` when there is none). -/
def firstAtOrAfter (js : List Nat) (t : Nat) : Nat := js.findIdx (fun x => t ≤ x)

/-- Modelled from the spec: `Reader.seek_realtime(t)` sets a location marker
before the first entry with timestamp at or after `t`. -/
def seek_realtime (js : List Nat) (t : Nat) : JPos := JPos.loc (firstAtOrAfter js t)

/-- Modelled from the spec: `Reader.get_next()` — the entry one step forward,
if any, together with the position after the call. -/
def get_next (js : List Nat) : JPos → Option Nat × JPos
  | JPos.loc i =>
    match js[i]? with
    | some e => (some e, JPos.onEntry i)
    | none => (none, JPos.loc i)
  | JPos.onEntry i =>
    match js[i + 1]? with
    | some e => (some e, JPos.onEntry (i + 1))
    | none => (none, JPos.onEntry i)

/-- Modelled from the spec: `Reader.get_previous()` — the entry one step
backward, if any, together with the position after the call (no previous entry
is not an error: the position is unchanged). -/
def get_previous (js : List Nat) : JPos → Option Nat × JPos
  | JPos.loc i =>
    if i = 0 then (none, JPos.loc i)
    else
      match js[i - 1]? with
      | some e => (some e, JPos.onEntry (i - 1))
      | none => (none, JPos.loc i)
  | JPos.onEntry i =>
    if i = 0 then (none, JPos.onEntry i)
    else
      match js[i - 1]? with
      | some e => (some e, JPos.onEntry (i - 1))
      | none => (none, JPos.onEntry i)

/-- Embedding of `FilterSystemd.seekToTime(date)` (the datetime conversion is
the identity in the timestamp model). -/
def seekToTime (js : List Nat) (t : Nat) : JPos := seek_realtime js t

/-- The startup prologue of `FilterSystemd.run()`: seek to `now - findtime`,
then `get_previous()` guarded by `try ... except OSError: pass`. `fault` makes
`get_previous` raise `OSError` (leaving the position unchanged); the `Except`
layer shows that no error escapes this prologue. -/
def startupSeek (js : List Nat) (now findtime : Nat) (fault : Bool) : Except String JPos :=
  let p := seekToTime js (now - findtime)
  match (if fault then Except.error "OSError" else Except.ok (get_previous js p).2 :
      Except String JPos) with
  | Except.error _ => Except.ok p
  | Except.ok q => Except.ok q

/-! ### Main-loop drain and ticket phases -/

/-- The inner entry-drain loop of `run()`: at each iteration re-check
`self.active` (indexed by the poll instant `i`), call `get_next()` (an
`OSError` there leaves `logentry = None` and is modelled as `none`), and stop
on a missing entry or when the 100-entry batch cap is reached. The `modified`
counter capped at 100 is represented by the remaining fuel `100 - modified`. -/
def drainLoop {α : Type} (active : Nat → Bool) (next : Nat → Option α) :
    Nat → Nat → List α
  | _, 0 => []
  | i, fuel + 1 =>
    if active i then
      match next i with
      | some e => e :: drainLoop active next (i + 1) fuel
      | none => []
    else []

/-- The ticket-drain loop of `run()`: `while True: ticket = failManager.toBan();
jail.putFailTicket(ticket)` until `FailManagerEmpty` — it forwards the whole
pending queue and consults nothing else (in particular not `self.active`). -/
def ticketLoop {τ : Type} : List τ → List τ
  | [] => []
  | t :: ts => t :: ticketLoop ts

/-- One iteration of the outer `while self.active` loop of `run()` after the
blocking wait: the idle check, the entry-drain loop (poll instants 1, 2, ...;
instant 0 is the outer check), and, when at least one entry was processed, the
ticket drain. Returns the entries processed and the tickets forwarded to the
jail. -/
def runCycle {α τ : Type} (active : Nat → Bool) (idle : Bool) (next : Nat → Option α)
    (queue : List τ) : List α × List τ :=
  if active 0 then
    if idle then ([], [])
    else
      let es := drainLoop active next 1 100
      (es, if es.length ≠ 0 then ticketLoop queue else [])
  else ([], [])

/-! ### Lemmas: observable store structure -/

theorem obsAux_split (a b : List JOp) :
    ∀ cur, obsAux (a ++ JOp.d :: b) cur = obsAux (a ++ [JOp.d]) cur ++ obsAux b [] := by
  induction a with
  | nil => intro cur; simp [obsAux]
  | cons x a ih =>
    intro cur
    cases x with
    | m t =>
      have h2 : obsAux ((JOp.m t :: a) ++ JOp.d :: b) cur
          = obsAux (a ++ JOp.d :: b) (cur ++ [t]) := rfl
      have h3 : obsAux ((JOp.m t :: a) ++ [JOp.d]) cur
          = obsAux (a ++ [JOp.d]) (cur ++ [t]) := rfl
      rw [h2, h3, ih]
    | d =>
      have h2 : obsAux ((JOp.d :: a) ++ JOp.d :: b) cur
          = (if cur = [] then [] else [cur]) ++ obsAux (a ++ JOp.d :: b) [] := rfl
      have h3 : obsAux ((JOp.d :: a) ++ [JOp.d]) cur
          = (if cur = [] then [] else [cur]) ++ obsAux (a ++ [JOp.d]) [] := rfl
      rw [h2, h3, ih [], List.append_assoc]

theorem obsAux_group (g : List String) :
    ∀ cur, obsAux (g.map JOp.m ++ [JOp.d]) cur = if cur ++ g = [] then [] else [cur ++ g] := by
  induction g with
  | nil => intro cur; simp [obsAux]
  | cons t g ih =>
    intro cur
    have h2 : obsAux ((t :: g).map JOp.m ++ [JOp.d]) cur
        = obsAux (g.map JOp.m ++ [JOp.d]) (cur ++ [t]) := rfl
    rw [h2, ih]
    simp

theorem obsGroups_replay (ms : List (List String)) :
    obsGroups (replayOps ms) = ms.filter (fun g => !g.isEmpty) := by
  induction ms with
  | nil => rfl
  | cons g gs ih =>
    have h1 : replayOps (g :: gs) = g.map JOp.m ++ (JOp.d :: replayOps gs) := by
      simp [replayOps]
    unfold obsGroups at ih ⊢
    rw [h1, obsAux_split, obsAux_group]
    cases g with
    | nil => simpa [List.filter_cons] using ih
    | cons x xs => simp [List.filter_cons, ih]

theorem closedOps_append (a b : List JOp) (ha : ClosedOps a) (hb : ClosedOps b) :
    ClosedOps (a ++ b) := by
  rcases hb with rfl | ⟨c, rfl⟩
  · simpa using ha
  · exact Or.inr ⟨a ++ c, by simp⟩

theorem closedOps_snoc_d (a : List JOp) : ClosedOps (a ++ [JOp.d]) := Or.inr ⟨a, rfl⟩

theorem closedOps_replay (ms : List (List String)) : ClosedOps (replayOps ms) := by
  induction ms with
  | nil => exact Or.inl rfl
  | cons g gs ih => exact closedOps_append _ _ (closedOps_snoc_d (g.map JOp.m)) ih

theorem obsGroups_append (a b : List JOp) (ha : ClosedOps a) :
    obsGroups (a ++ b) = obsGroups a ++ obsGroups b := by
  rcases ha with rfl | ⟨c, rfl⟩
  · simp [obsGroups, obsAux]
  · unfold obsGroups
    rw [List.append_assoc, List.singleton_append, obsAux_split]

/-! ### Lemmas: shapes of the add operations -/

theorem addGroupOps_eq_true (valid : String → Bool) (g : List String) :
    ∀ store s, addGroupOps valid store g = (true, s) → s = store ++ g.map JOp.m := by
  induction g with
  | nil =>
    intro store s h
    simp only [addGroupOps, Prod.mk.injEq, true_and] at h
    simp [← h]
  | cons t ts ih =>
    intro store s h
    by_cases hv : valid t
    · simp only [addGroupOps, hv, if_true] at h
      rw [ih _ _ h]
      simp
    · simp [addGroupOps, hv] at h

theorem addGroupOps_success (valid : String → Bool) (g : List String)
    (h : ∀ t ∈ g, valid t = true) :
    ∀ store, addGroupOps valid store g = (true, store ++ g.map JOp.m) := by
  induction g with
  | nil => intro store; simp [addGroupOps]
  | cons t ts ih =>
    intro store
    have hv : valid t = true := h t (List.mem_cons_self t ts)
    have hts : ∀ u ∈ ts, valid u = true := fun u hu => h u (List.mem_cons_of_mem t hu)
    simp only [addGroupOps, hv, if_true, ih hts]
    simp

theorem addGroupOps_fst_false (valid : String → Bool) (g : List String)
    (h : ∃ t ∈ g, valid t = false) :
    ∀ store, (addGroupOps valid store g).1 = false := by
  induction g with
  | nil => simp at h
  | cons t ts ih =>
    intro store
    rcases h with ⟨u, hu, hv⟩
    rcases List.mem_cons.mp hu with rfl | hmem
    · simp [addGroupOps, hv]
    · by_cases hvt : valid t
      · simp only [addGroupOps, hvt, if_true]
        exact ih ⟨u, hmem, hv⟩ _
      · simp [addGroupOps, hvt]

theorem addGroupsOps_eq_true (valid : String → Bool) (ms : List (List String)) :
    ∀ store s, addGroupsOps valid store ms = (true, s) → s = store ++ replayOps ms := by
  induction ms with
  | nil =>
    intro store s h
    simp only [addGroupsOps, Prod.mk.injEq, true_and] at h
    simp [← h, replayOps]
  | cons g gs ih =>
    intro store s h
    simp only [addGroupsOps] at h
    cases hg : addGroupOps valid store g with
    | mk b s1 =>
      rw [hg] at h
      cases b with
      | false => simp at h
      | true =>
        simp only at h
        rw [ih _ _ h, addGroupOps_eq_true valid g store s1 hg]
        simp [replayOps]

theorem addGroupsOps_success (valid : String → Bool) (ms : List (List String))
    (h : ∀ g ∈ ms, ∀ t ∈ g, valid t = true) :
    ∀ store, addGroupsOps valid store ms = (true, store ++ replayOps ms) := by
  induction ms with
  | nil => intro store; simp [addGroupsOps, replayOps]
  | cons g gs ih =>
    intro store
    have hgv : ∀ t ∈ g, valid t = true := h g (List.mem_cons_self g gs)
    have hgs : ∀ g' ∈ gs, ∀ t ∈ g', valid t = true :=
      fun g' hg' => h g' (List.mem_cons_of_mem g hg')
    simp only [addGroupsOps, addGroupOps_success valid g hgv store, ih hgs]
    simp [replayOps]

theorem addGroupsOps_fst_false (valid : String → Bool) (ms : List (List String))
    (h : ∃ g ∈ ms, ∃ t ∈ g, valid t = false) :
    ∀ store, (addGroupsOps valid store ms).1 = false := by
  induction ms with
  | nil => simp at h
  | cons g gs ih =>
    intro store
    rcases h with ⟨g', hg', hbad⟩
    simp only [addGroupsOps]
    rcases List.mem_cons.mp hg' with rfl | hmem
    · cases hg : addGroupOps valid store g' with
      | mk b s1 =>
        have hb : b = false := by
          have := addGroupOps_fst_false valid g' hbad store
          rw [hg] at this
          exact this
        subst hb
        simp
    · cases hg : addGroupOps valid store g with
      | mk b s1 =>
        cases b with
        | false => simp
        | true =>
          simp only
          exact ih ⟨g', hmem, hbad⟩ _

/-! ### Lemmas: `_addJournalMatches`, reset, and the mirror invariant -/

theorem _addJournalMatches_eq_true (valid : String → Bool) (st : FState)
    (ms : List (List String)) (st' : FState)
    (h : _addJournalMatches valid st ms = (true, st')) :
    st' = ⟨(if st.__matches = [] then st.store else st.store ++ [JOp.d]) ++ replayOps ms,
           st.__matches ++ ms⟩ := by
  simp only [_addJournalMatches] at h
  cases hr : addGroupsOps valid
      (if st.__matches = [] then st.store else st.store ++ [JOp.d]) ms with
  | mk b s =>
    rw [hr] at h
    cases b with
    | false => simp at h
    | true =>
      simp only [if_true, Prod.mk.injEq, true_and] at h
      rw [← h, addGroupsOps_eq_true valid ms _ s hr]

theorem _addJournalMatches_success (valid : String → Bool) (st : FState)
    (ms : List (List String)) (h : ∀ g ∈ ms, ∀ t ∈ g, valid t = true) :
    _addJournalMatches valid st ms =
      (true, ⟨(if st.__matches = [] then st.store else st.store ++ [JOp.d]) ++ replayOps ms,
              st.__matches ++ ms⟩) := by
  simp only [_addJournalMatches, addGroupsOps_success valid ms h]
  simp

theorem _addJournalMatches_fst_false (valid : String → Bool) (st : FState)
    (ms : List (List String)) (h : ∃ g ∈ ms, ∃ t ∈ g, valid t = false) :
    (_addJournalMatches valid st ms).1 = false := by
  simp only [_addJournalMatches]
  exact addGroupsOps_fst_false valid ms h _

theorem _addJournalMatches_matches_of_false (valid : String → Bool) (st : FState)
    (ms : List (List String)) (h : (_addJournalMatches valid st ms).1 = false) :
    (_addJournalMatches valid st ms).2.__matches = st.__matches := by
  simp only [_addJournalMatches] at h ⊢
  rw [h]
  simp

theorem resetJournalMatches_success (valid : String → Bool) (st : FState)
    (h : ∀ g ∈ st.__matches, ∀ t ∈ g, valid t = true) :
    resetJournalMatches valid st = (true, ⟨replayOps st.__matches, st.__matches⟩) := by
  unfold resetJournalMatches
  rw [_addJournalMatches_success valid ⟨[], []⟩ st.__matches h]
  simp

theorem addJournalMatch_true_inv (valid : String → Bool) (st : FState) (mspec : List String)
    (st' : FState) (h : addJournalMatch valid st mspec = (true, st')) (hinv : MatchInv st) :
    MatchInv st' := by
  simp only [addJournalMatch] at h
  cases hr : _addJournalMatches valid st (splitPlus mspec) with
  | mk b s2 =>
    rw [hr] at h
    cases b with
    | false => simp at h
    | true =>
      simp only [if_true] at h
      cases h
      have hshape := _addJournalMatches_eq_true valid st _ _ hr
      subst hshape
      have hbase : ClosedOps (if st.__matches = [] then st.store else st.store ++ [JOp.d]) := by
        by_cases hm : st.__matches = []
        · simpa [hm] using hinv.1
        · simpa [hm] using closedOps_snoc_d st.store
      constructor
      · exact closedOps_append _ _ hbase (closedOps_replay _)
      · show obsGroups (_ ++ replayOps (splitPlus mspec)) = _
        rw [obsGroups_append _ _ hbase, obsGroups_replay, List.filter_append, ← hinv.2]
        by_cases hm : st.__matches = []
        · simp [hm]
        · rw [if_neg hm, obsGroups_append _ _ hinv.1]
          have hd : obsGroups [JOp.d] = [] := rfl
          rw [hd, List.append_nil]

theorem delJournalMatch_true_inv (valid : String → Bool) (st : FState) (mspec : List String)
    (st' : FState) (h : delJournalMatch valid st mspec = (true, st')) : MatchInv st' := by
  simp only [delJournalMatch] at h
  by_cases hm : mspec ∈ st.__matches
  · rw [if_pos hm] at h
    unfold resetJournalMatches at h
    have hshape := _addJournalMatches_eq_true valid ⟨[], []⟩ _ _ h
    subst hshape
    constructor
    · simpa using closedOps_replay (st.__matches.erase mspec)
    · show obsGroups ((if ([] : List (List String)) = [] then ([] : List JOp) else _) ++ _) = _
      simpa using obsGroups_replay (st.__matches.erase mspec)
  · rw [if_neg hm] at h
    simp at h

theorem runOps_inv (valid : String → Bool) (ops : List MOp) :
    ∀ st st', runOps valid st ops = some st' → MatchInv st → MatchInv st' := by
  induction ops with
  | nil =>
    intro st st' h hi
    simp only [runOps, Option.some.injEq] at h
    exact h ▸ hi
  | cons op rest ih =>
    intro st st' h hi
    cases op with
    | add ms =>
      simp only [runOps] at h
      cases ha : addJournalMatch valid st ms with
      | mk b s2 =>
        rw [ha] at h
        cases b with
        | false => simp at h
        | true =>
          exact ih _ _ (by simpa using h) (addJournalMatch_true_inv valid st ms s2 ha hi)
    | del ms =>
      simp only [runOps] at h
      cases ha : delJournalMatch valid st ms with
      | mk b s2 =>
        rw [ha] at h
        cases b with
        | false => simp at h
        | true =>
          exact ih _ _ (by simpa using h) (delJournalMatch_true_inv valid st ms s2 ha)

/-- C1: after every sequence of successful `addJournalMatch` / `delJournalMatch`
operations starting from the empty filter, the store-side filter structure
(match groups and disjunction boundaries) is observably equivalent to replaying
the in-memory ordered sequence of match groups into an empty store; no
divergent store state persists after any successful mutation. -/
theorem store_mirrors_memory (valid : String → Bool) (ops : List MOp) (st : FState)
    (h : runOps valid FState.empty ops = some st) :
    obsGroups st.store = obsGroups (replayOps st.__matches) := by
  have hinv : MatchInv st := runOps_inv valid ops FState.empty st h ⟨Or.inl rfl, rfl⟩
  rw [hinv.2, obsGroups_replay]

/-- Witness for C1 at the concrete mutation sequence
add `A B + C`, add `D`, del `A B`. -/
theorem store_mirrors_memory_witness :
    runOps validAll FState.empty
        [MOp.add ["A", "B", "+", "C"], MOp.add ["D"], MOp.del ["A", "B"]]
      = some ⟨[JOp.m "C", JOp.d, JOp.m "D", JOp.d], [["C"], ["D"]]⟩
    ∧ obsGroups (FState.mk [JOp.m "C", JOp.d, JOp.m "D", JOp.d] [["C"], ["D"]]).store
      = obsGroups (replayOps (FState.mk [JOp.m "C", JOp.d, JOp.m "D", JOp.d]
          [["C"], ["D"]]).__matches) :=
  ⟨by decide, store_mirrors_memory validAll
    [MOp.add ["A", "B", "+", "C"], MOp.add ["D"], MOp.del ["A", "B"]] _ (by decide)⟩

/-! ### Lemmas: the `"+"` split of a match specification -/

theorem splitPlusAux_flatten (ms : List String) :
    ∀ cur acc, (splitPlusAux cur acc ms).flatten
      = acc.flatten ++ cur ++ ms.filter (fun t => t != "+") := by
  induction ms with
  | nil => intro cur acc; simp [splitPlusAux]
  | cons e rest ih =>
    intro cur acc
    by_cases he : e = "+"
    · subst he
      have hstep : splitPlusAux cur acc ("+" :: rest) = splitPlusAux [] (acc ++ [cur]) rest := rfl
      have hfil : List.filter (fun t => t != "+") ("+" :: rest)
          = List.filter (fun t => t != "+") rest := by simp
      rw [hstep, ih [] (acc ++ [cur]), hfil]
      simp
    · simp only [splitPlusAux, if_neg he, ih, List.filter_cons]
      simp [he]

theorem splitPlus_flatten (mspec : List String) :
    (splitPlus mspec).flatten = mspec.filter (fun t => t != "+") := by
  simpa using splitPlusAux_flatten mspec [] []

theorem mem_splitPlus (mspec : List String) (t : String) (ht : t ∈ mspec) (hne : t ≠ "+") :
    ∃ g ∈ splitPlus mspec, t ∈ g := by
  have hmem : t ∈ (splitPlus mspec).flatten := by
    rw [splitPlus_flatten]
    exact List.mem_filter.mpr ⟨ht, by simpa [bne_iff_ne] using hne⟩
  exact List.mem_flatten.mp hmem

theorem splitPlus_valid (valid : String → Bool) (mspec : List String)
    (h : ∀ t ∈ mspec, t ≠ "+" → valid t = true) :
    ∀ g ∈ splitPlus mspec, ∀ t ∈ g, valid t = true := by
  intro g hg t htg
  have hmem : t ∈ (splitPlus mspec).flatten := List.mem_flatten.mpr ⟨g, hg, htg⟩
  rw [splitPlus_flatten] at hmem
  have h2 := List.mem_filter.mp hmem
  exact h t h2.1 (by simpa [bne_iff_ne] using h2.2)

/-- C2: for a match specification containing a token the store rejects,
`addJournalMatch` rejects the whole specification — the in-memory sequence is
unchanged, the store is rolled back by a full flush plus re-registration of
every previously accepted group, and the error is re-raised; for a
specification with no rejected token, the new groups (split at each `"+"`) are
appended to the in-memory sequence. -/
theorem addJournalMatch_spec (valid : String → Bool) (st : FState) (mspec : List String)
    (hv : ∀ g ∈ st.__matches, ∀ t ∈ g, valid t = true) :
    ((∃ t ∈ mspec, t ≠ "+" ∧ valid t = false) →
      addJournalMatch valid st mspec = (false, ⟨replayOps st.__matches, st.__matches⟩))
    ∧ ((∀ t ∈ mspec, t ≠ "+" → valid t = true) →
      addJournalMatch valid st mspec =
        (true, ⟨(if st.__matches = [] then st.store else st.store ++ [JOp.d])
                  ++ replayOps (splitPlus mspec),
                st.__matches ++ splitPlus mspec⟩)) := by
  constructor
  · rintro ⟨t, ht, hne, hbad⟩
    have hfail : (_addJournalMatches valid st (splitPlus mspec)).1 = false := by
      apply _addJournalMatches_fst_false
      obtain ⟨g, hg, htg⟩ := mem_splitPlus mspec t ht hne
      exact ⟨g, hg, t, htg, hbad⟩
    have hmat := _addJournalMatches_matches_of_false valid st _ hfail
    have hre : resetJournalMatches valid (_addJournalMatches valid st (splitPlus mspec)).2
        = (true, ⟨replayOps st.__matches, st.__matches⟩) := by
      unfold resetJournalMatches
      rw [hmat, _addJournalMatches_success valid ⟨[], []⟩ st.__matches hv]
      simp
    simp only [addJournalMatch, hfail, hre]
    simp
  · intro hval
    have hok := _addJournalMatches_success valid st (splitPlus mspec)
      (splitPlus_valid valid mspec hval)
    simp only [addJournalMatch, hok]
    simp

/-- Witness for C2: a store rejecting the token `"bad"`; one rejected add with
full rollback, one accepted add with the groups appended. -/
theorem addJournalMatch_spec_witness :
    addJournalMatch validEx ⟨[JOp.m "A", JOp.d], [["A"]]⟩ ["X", "bad"]
      = (false, ⟨replayOps [["A"]], [["A"]]⟩)
    ∧ addJournalMatch validEx ⟨[JOp.m "A", JOp.d], [["A"]]⟩ ["B", "+", "C"]
      = (true, ⟨(if ([["A"]] : List (List String)) = [] then [JOp.m "A", JOp.d]
                   else [JOp.m "A", JOp.d] ++ [JOp.d]) ++ replayOps (splitPlus ["B", "+", "C"]),
                [["A"]] ++ splitPlus ["B", "+", "C"]⟩) :=
  ⟨(addJournalMatch_spec validEx ⟨[JOp.m "A", JOp.d], [["A"]]⟩ ["X", "bad"] (by decide)).1
      (by decide),
   (addJournalMatch_spec validEx ⟨[JOp.m "A", JOp.d], [["A"]]⟩ ["B", "+", "C"] (by decide)).2
      (by decide)⟩

/-- C3: deleting a match specification that does not equal (token for token,
group for group) an existing stored match group raises the "not found"
condition and leaves the match set unchanged, both in memory and at the
store. -/
theorem delJournalMatch_not_found (valid : String → Bool) (st : FState) (mspec : List String)
    (h : mspec ∉ st.__matches) : delJournalMatch valid st mspec = (false, st) := by
  simp [delJournalMatch, h]

/-- Witness for C3 at a concrete state holding only the group `[A]`. -/
theorem delJournalMatch_not_found_witness :
    delJournalMatch validAll ⟨[JOp.m "A", JOp.d], [["A"]]⟩ ["B"]
      = (false, ⟨[JOp.m "A", JOp.d], [["A"]]⟩) :=
  delJournalMatch_not_found validAll ⟨[JOp.m "A", JOp.d], [["A"]]⟩ ["B"] (by decide)

/-- C9: adding the tokens `A B + C` succeeds and renders the status string
`"A B + C"`; deleting the group `[A, B]` afterwards succeeds, leaves exactly
`"C"`, and the store-side state is the full flush-plus-rebuild of the single
remaining group `[C]`. -/
theorem add_del_status_scenario :
    (addJournalMatch validAll FState.empty ["A", "B", "+", "C"]).1 = true
    ∧ statusMatches (addJournalMatch validAll FState.empty ["A", "B", "+", "C"]).2 = "A B + C"
    ∧ delJournalMatch validAll (addJournalMatch validAll FState.empty ["A", "B", "+", "C"]).2
        ["A", "B"]
      = (true, ⟨replayOps [["C"]], [["C"]]⟩)
    ∧ statusMatches ⟨replayOps [["C"]], [["C"]]⟩ = "C" := by
  decide

/-! ### Lemmas: the formatted line -/

theorem pyJoin_cons_ne_nil (sep x : String) (l : List String) (hl : l ≠ []) :
    pyJoin sep (x :: l) = x ++ sep ++ pyJoin sep l := by
  cases l with
  | nil => exact absurd rfl hl
  | cons y rest => rfl

theorem pyJoin_infix_pair (x y : String) (rest : List String) :
    ∀ pre : List String, ∃ s1 s2,
      pyJoin " " (pre ++ x :: y :: rest) = s1 ++ (x ++ " " ++ y) ++ s2 := by
  intro pre
  induction pre with
  | nil =>
    cases rest with
    | nil =>
      refine ⟨"", "", ?_⟩
      simp [pyJoin]
    | cons r rs =>
      refine ⟨"", " " ++ pyJoin " " (r :: rs), ?_⟩
      simp [pyJoin, String.append_assoc]
  | cons p pre ih =>
    obtain ⟨s1, s2, hs⟩ := ih
    refine ⟨p ++ " " ++ s1, s2, ?_⟩
    have hcons : pyJoin " " ((p :: pre) ++ x :: y :: rest)
        = p ++ " " ++ pyJoin " " (pre ++ x :: y :: rest) := by
      apply pyJoin_cons_ne_nil
      simp
    rw [hcons, hs]
    simp [String.append_assoc]

/-- C6: the numeric timestamp of every successfully formatted entry equals the
integer epoch seconds of the entry's realtime timestamp plus its microsecond
component divided by one million, where the realtime timestamp is the
source-reported field when present, else the store's own field. -/
theorem entry_timestamp (e : RawEntry) (line : String) (ts : ℚ)
    (h : formatJournalEntry e = some (line, ts)) :
    ∃ dt : JTime,
      (e.sourceRealtime = some dt ∨ (e.sourceRealtime = none ∧ e.realtime = some dt))
      ∧ ts = (dt.sec : ℚ) + (dt.usec : ℚ) / 1000000 := by
  cases hle : logElements e with
  | none => simp [formatJournalEntry, hle] at h
  | some els =>
    cases hd : getDate e with
    | none => simp [formatJournalEntry, hle, hd] at h
    | some dt =>
      refine ⟨dt, ?_, ?_⟩
      · unfold getDate at hd
        cases hsr : e.sourceRealtime with
        | some d2 =>
          rw [hsr] at hd
          simp only [Option.some.injEq] at hd
          subst hd
          exact Or.inl rfl
        | none =>
          rw [hsr] at hd
          exact Or.inr ⟨rfl, hd⟩
      · simp only [formatJournalEntry, hle, hd, Option.some.injEq, Prod.mk.injEq] at h
        exact h.2.symm

/-- Witness for C6 at a concrete entry carrying only a message and the store's
realtime timestamp 50 s + 500000 µs. -/
theorem entry_timestamp_witness :
    formatJournalEntry (RawEntry.mk none none none none none none none
        (some (Msg.str "msg")) none (some (JTime.mk 50 500000)))
      = some ("msg", ((50 : Nat) : ℚ) + ((500000 : Nat) : ℚ) / 1000000)
    ∧ ∃ dt : JTime,
      ((RawEntry.mk none none none none none none none (some (Msg.str "msg")) none
          (some (JTime.mk 50 500000))).sourceRealtime = some dt
        ∨ ((RawEntry.mk none none none none none none none (some (Msg.str "msg")) none
            (some (JTime.mk 50 500000))).sourceRealtime = none
          ∧ (RawEntry.mk none none none none none none none (some (Msg.str "msg")) none
              (some (JTime.mk 50 500000))).realtime = some dt))
      ∧ ((50 : Nat) : ℚ) + ((500000 : Nat) : ℚ) / 1000000
          = (dt.sec : ℚ) + (dt.usec : ℚ) / 1000000 :=
  ⟨rfl, entry_timestamp (RawEntry.mk none none none none none none none
      (some (Msg.str "msg")) none (some (JTime.mk 50 500000)))
    "msg" (((50 : Nat) : ℚ) + ((500000 : Nat) : ℚ) / 1000000) rfl⟩

/-- C7: every successfully formatted entry whose rendered identifier element is
exactly `"kernel:"` has, immediately after that element, a bracketed monotonic
timestamp rendered with six decimal digits (`fmtF12_6`), taken from
`_SOURCE_MONOTONIC_TIMESTAMP` when present, else from `__MONOTONIC_TIMESTAMP`;
the formatted line therefore contains `"kernel: [...]"` as a substring. -/
theorem kernel_entry_monotonic (e : RawEntry) (line : String) (ts : ℚ)
    (h : formatJournalEntry e = some (line, ts))
    (hk : identElement e = some "kernel:") :
    ∃ m s1 s2,
      (e.sourceMonotonic = some m ∨ (e.sourceMonotonic = none ∧ e.monotonic = some m))
      ∧ logElements e
          = some (hostElements e ++ ["kernel:", "[" ++ fmtF12_6 m ++ "]", msgElement e])
      ∧ line = s1 ++ ("kernel:" ++ " " ++ ("[" ++ fmtF12_6 m ++ "]")) ++ s2 := by
  cases hmono : kernelMono e with
  | none =>
    exfalso
    have hle : logElements e = none := by
      simp [logElements, hk, hmono]
    simp [formatJournalEntry, hle] at h
  | some m =>
    have hle : logElements e
        = some (hostElements e ++ ["kernel:", "[" ++ fmtF12_6 m ++ "]", msgElement e]) := by
      simp [logElements, hk, hmono]
    have hm : e.sourceMonotonic = some m ∨ (e.sourceMonotonic = none ∧ e.monotonic = some m) := by
      unfold kernelMono at hmono
      cases hsm : e.sourceMonotonic with
      | some m2 =>
        rw [hsm] at hmono
        simp only [Option.some.injEq] at hmono
        subst hmono
        exact Or.inl rfl
      | none =>
        rw [hsm] at hmono
        exact Or.inr ⟨rfl, hmono⟩
    cases hd : getDate e with
    | none => simp [formatJournalEntry, hle, hd] at h
    | some dt =>
      have hline : line
          = pyJoin " " (hostElements e
              ++ "kernel:" :: ("[" ++ fmtF12_6 m ++ "]") :: [msgElement e]) := by
        simp only [formatJournalEntry, hle, hd, Option.some.injEq, Prod.mk.injEq] at h
        exact h.1.symm
      obtain ⟨s1, s2, hs⟩ :=
        pyJoin_infix_pair "kernel:" ("[" ++ fmtF12_6 m ++ "]") [msgElement e] (hostElements e)
      exact ⟨m, s1, s2, hm, hle, by rw [hline]; exact hs⟩

/-- Witness for C7 at a concrete kernel entry with a source monotonic timestamp
of 1.5 s. -/
theorem kernel_entry_monotonic_witness :
    formatJournalEntry (RawEntry.mk (some "host") (some "kernel") none none none
        (some 1500000) none (some (Msg.str "oops")) none (some (JTime.mk 1 0)))
      = some ("host kernel: [    1.500000] oops", ((1 : Nat) : ℚ) + ((0 : Nat) : ℚ) / 1000000)
    ∧ identElement (RawEntry.mk (some "host") (some "kernel") none none none
        (some 1500000) none (some (Msg.str "oops")) none (some (JTime.mk 1 0)))
      = some "kernel:"
    ∧ ∃ m s1 s2,
      ((RawEntry.mk (some "host") (some "kernel") none none none (some 1500000) none
          (some (Msg.str "oops")) none (some (JTime.mk 1 0))).sourceMonotonic = some m
        ∨ ((RawEntry.mk (some "host") (some "kernel") none none none (some 1500000) none
            (some (Msg.str "oops")) none (some (JTime.mk 1 0))).sourceMonotonic = none
          ∧ (RawEntry.mk (some "host") (some "kernel") none none none (some 1500000) none
              (some (Msg.str "oops")) none (some (JTime.mk 1 0))).monotonic = some m))
      ∧ logElements (RawEntry.mk (some "host") (some "kernel") none none none (some 1500000)
            none (some (Msg.str "oops")) none (some (JTime.mk 1 0)))
          = some (hostElements (RawEntry.mk (some "host") (some "kernel") none none none
              (some 1500000) none (some (Msg.str "oops")) none (some (JTime.mk 1 0)))
            ++ ["kernel:", "[" ++ fmtF12_6 m ++ "]",
                msgElement (RawEntry.mk (some "host") (some "kernel") none none none
                  (some 1500000) none (some (Msg.str "oops")) none (some (JTime.mk 1 0)))])
      ∧ "host kernel: [    1.500000] oops"
          = s1 ++ ("kernel:" ++ " " ++ ("[" ++ fmtF12_6 m ++ "]")) ++ s2 :=
  ⟨rfl, rfl,
   kernel_entry_monotonic (RawEntry.mk (some "host") (some "kernel") none none none
      (some 1500000) none (some (Msg.str "oops")) none (some (JTime.mk 1 0)))
    "host kernel: [    1.500000] oops" (((1 : Nat) : ℚ) + ((0 : Nat) : ℚ) / 1000000) rfl rfl⟩

/-- C10: an entry whose identifier element renders exactly `"kernel:"` but
which carries neither `_SOURCE_MONOTONIC_TIMESTAMP` nor `__MONOTONIC_TIMESTAMP`
makes `formatJournalEntry` raise (the fallback chain subscripts the absent
store field) instead of producing a normalised entry. -/
theorem kernel_missing_monotonic_raises (e : RawEntry)
    (hk : identElement e = some "kernel:")
    (h1 : e.sourceMonotonic = none) (h2 : e.monotonic = none) :
    formatJournalEntry e = none := by
  have hmono : kernelMono e = none := by simp [kernelMono, h1, h2]
  have hle : logElements e = none := by simp [logElements, hk, hmono]
  simp [formatJournalEntry, hle]

/-- Witness for C10 at a concrete kernel entry with no monotonic field. -/
theorem kernel_missing_monotonic_raises_witness :
    identElement (RawEntry.mk none (some "kernel") none none none none none
        (some (Msg.str "x")) none (some (JTime.mk 1 0)))
      = some "kernel:"
    ∧ formatJournalEntry (RawEntry.mk none (some "kernel") none none none none none
        (some (Msg.str "x")) none (some (JTime.mk 1 0)))
      = none :=
  ⟨rfl, kernel_missing_monotonic_raises (RawEntry.mk none (some "kernel") none none none
      none none (some (Msg.str "x")) none (some (JTime.mk 1 0))) rfl rfl rfl⟩

/-! ### Lemmas: the drain and ticket loops -/

theorem drainLoop_length_le {α : Type} (active : Nat → Bool) (next : Nat → Option α) :
    ∀ fuel i, (drainLoop active next i fuel).length ≤ fuel := by
  intro fuel
  induction fuel with
  | zero => intro i; simp [drainLoop]
  | succ f ih =>
    intro i
    simp only [drainLoop]
    by_cases ha : active i
    · rw [if_pos ha]
      cases hn : next i with
      | some e => simpa using ih (i + 1)
      | none => simp
    · rw [if_neg ha]
      simp

theorem drainLoop_length_eq {α : Type} (active : Nat → Bool) (next : Nat → Option α)
    (ha : ∀ j, active j = true) (hn : ∀ j, (next j).isSome) :
    ∀ fuel i, (drainLoop active next i fuel).length = fuel := by
  intro fuel
  induction fuel with
  | zero => intro i; simp [drainLoop]
  | succ f ih =>
    intro i
    obtain ⟨e, he⟩ := Option.isSome_iff_exists.mp (hn i)
    simp only [drainLoop, ha i, if_pos rfl, he]
    simpa using ih (i + 1)

theorem drainLoop_none {α : Type} (active : Nat → Bool) (next : Nat → Option α)
    (i : Nat) (hn : next i = none) : ∀ fuel, drainLoop active next i fuel = [] := by
  intro fuel
  cases fuel with
  | zero => rfl
  | succ f =>
    simp only [drainLoop, hn]
    by_cases ha : active i <;> simp [ha]

theorem drainLoop_inactive {α : Type} (active : Nat → Bool) (next : Nat → Option α)
    (i : Nat) (ha : active i = false) : ∀ fuel, drainLoop active next i fuel = [] := by
  intro fuel
  cases fuel with
  | zero => rfl
  | succ f => simp [drainLoop, ha]

theorem ticketLoop_eq {τ : Type} : ∀ queue : List τ, ticketLoop queue = queue := by
  intro queue
  induction queue with
  | nil => rfl
  | cons t ts ih => simp [ticketLoop, ih]

/-- C4: the entry-drain phase of a wait cycle processes at most 100 entries;
with the active flag held and entries always available it processes exactly
100; it stops as soon as `get_next` yields no entry; and the active flag is
re-checked before a new drain cycle starts (a cycle whose initial check sees
a cleared flag drains nothing). -/
theorem drain_batch_cap {α τ : Type} (active : Nat → Bool) (next : Nat → Option α)
    (idle : Bool) (queue : List τ) (i : Nat) :
    (drainLoop active next i 100).length ≤ 100
    ∧ ((∀ j, active j = true) → (∀ j, (next j).isSome) →
        (drainLoop active next i 100).length = 100)
    ∧ (next i = none → drainLoop active next i 100 = [])
    ∧ (active 0 = false → (runCycle active idle next queue).1 = []) := by
  refine ⟨drainLoop_length_le active next 100 i, ?_, ?_, ?_⟩
  · intro ha hn
    exact drainLoop_length_eq active next ha hn 100 i
  · intro hn
    exact drainLoop_none active next i hn 100
  · intro ha
    simp [runCycle, ha]

/-- Witness for C4: a full 100-entry batch under unlimited supply, an empty
drain on an exhausted journal, and an empty drain for a cleared flag. -/
theorem drain_batch_cap_witness :
    (drainLoop (fun _ => true) (fun _ => some 0) 1 100).length = 100
    ∧ drainLoop (fun _ => true) (fun _ : Nat => (none : Option Nat)) 1 100 = []
    ∧ (runCycle (fun _ => false) false (fun _ => some 0) ([] : List Nat)).1 = [] :=
  ⟨(drain_batch_cap (fun _ => true) (fun _ => some 0) false ([] : List Nat) 1).2.1
      (fun _ => rfl) (fun _ => rfl),
   (drain_batch_cap (fun _ => true) (fun _ : Nat => (none : Option Nat)) false
      ([] : List Nat) 1).2.2.1 rfl,
   (drain_batch_cap (fun _ => false) (fun _ => some (0 : Nat)) false ([] : List Nat) 1).2.2.2
      rfl⟩

/-- C5 counterexample: the ticket-drain loop of `run()` does not poll the
active flag. With the flag cleared from poll instant 2 onwards (so the entry
drain stops at its active check), the cycle still forwards the whole pending
ticket queue to the jail. Under the claim — the flag polled at each iteration
of the ticket-drain loop — no ticket could be forwarded here. -/
theorem ticket_drain_ignores_active_counterexample :
    (fun k => decide (k < 2)) 2 = false
    ∧ (fun k => decide (k < 2)) 3 = false
    ∧ (runCycle (fun k => decide (k < 2)) false
        (fun k => if k = 1 then some 7 else none) [5]).2 = [5] := by
  decide

/-- C5 (amended): the active flag is polled at two points per outer cycle —
the top of the wait cycle and each iteration of the entry-drain loop; the
ticket-drain loop does not poll the flag and always forwards the whole pending
queue (or nothing, when no entry was processed). Consequently, once the flag
is cleared, a cycle at whose initial check the flag is already clear performs
nothing, and a cycle already past that check processes at most one batch of up
to 100 entries plus one full ticket drain before the loop terminates. -/
theorem active_polling_bound {α τ : Type} (active : Nat → Bool) (idle : Bool)
    (next : Nat → Option α) (queue : List τ) :
    (active 0 = false → runCycle active idle next queue = ([], []))
    ∧ (runCycle active idle next queue).1.length ≤ 100
    ∧ (∀ fuel j, active j = false → drainLoop active next j fuel = [])
    ∧ ((runCycle active idle next queue).2 = []
        ∨ (runCycle active idle next queue).2 = queue) := by
  refine ⟨?_, ?_, ?_, ?_⟩
  · intro ha
    simp [runCycle, ha]
  · by_cases ha : active 0
    · by_cases hi : idle
      · simp [runCycle, ha, hi]
      · simp only [runCycle, ha, if_pos rfl, hi, if_neg]
        simpa using drainLoop_length_le active next 100 1
    · simp [runCycle, ha]
  · intro fuel j ha
    exact drainLoop_inactive active next j ha fuel
  · by_cases ha : active 0
    · by_cases hi : idle
      · simp [runCycle, ha, hi]
      · by_cases hm : (drainLoop active next 1 100).length ≠ 0
        · right
          simp [runCycle, ha, hi, hm, ticketLoop_eq]
        · left
          simp [runCycle, ha, hi, hm]
    · simp [runCycle, ha]

/-- Witness for C5 (amended): a cycle with a cleared flag does nothing, and an
inactive poll instant drains nothing. -/
theorem active_polling_bound_witness :
    runCycle (fun _ => false) false (fun _ => some (0 : Nat)) [42]
      = (([] : List Nat), ([] : List Nat))
    ∧ drainLoop (fun _ => false) (fun _ => some (0 : Nat)) 3 100 = [] :=
  ⟨(active_polling_bound (fun _ => false) false (fun _ => some (0 : Nat)) [42]).1 rfl,
   (active_polling_bound (fun _ => false) false (fun _ => some (0 : Nat))
      ([42] : List Nat)).2.2.1 100 3 rfl⟩

/-! ### Lemmas: startup seek -/

theorem startupSeek_ok (js : List Nat) (now ft : Nat) (fault : Bool) :
    startupSeek js now ft fault
      = Except.ok (if fault then seekToTime js (now - ft)
          else (get_previous js (seekToTime js (now - ft))).2) := by
  cases fault <;> rfl

theorem get_next_loc (js : List Nat) (i : Nat) :
    (get_next js (JPos.loc i)).1 = js[i]? := by
  simp only [get_next]
  cases h : js[i]? <;> simp [h]

theorem stepback_next (js : List Nat) (i : Nat) :
    (get_next js (get_previous js (JPos.loc i)).2).1 = js[i]? := by
  simp only [get_previous]
  by_cases h0 : i = 0
  · rw [if_pos h0]
    subst h0
    exact get_next_loc js 0
  · rw [if_neg h0]
    cases hg : js[i - 1]? with
    | some e =>
      simp only [get_next]
      have hi : i - 1 + 1 = i := Nat.succ_pred_eq_of_pos (Nat.pos_of_ne_zero h0)
      rw [hi]
      cases h2 : js[i]? <;> simp [h2]
    | none =>
      simp only
      exact get_next_loc js i

/-- C8: with `findtime = 600` and current time `T`, the startup seek (seek to
`T - 600`, then one guarded step backward) never lets an error escape, and
positions the cursor so that the first forward read yields exactly the entry
at the index of the first record with timestamp at or after `T - 600` — in a
time-sorted journal, the earliest such record; on an empty store the first
read simply yields no entry. -/
theorem startup_seek_first_read (js : List Nat) (T : Nat) (fault : Bool)
    (hs : List.Sorted (· ≤ ·) js) :
    ∃ p, startupSeek js T 600 fault = Except.ok p
      ∧ (get_next js p).1 = js[firstAtOrAfter js (T - 600)]?
      ∧ ((∃ x ∈ js, T - 600 ≤ x) →
          ∃ r, (get_next js p).1 = some r ∧ r ∈ js ∧ T - 600 ≤ r
            ∧ ∀ x ∈ js, T - 600 ≤ x → r ≤ x)
      ∧ (js = [] → (get_next js p).1 = none) := by
  have hfr : (get_next js (if fault then seekToTime js (T - 600)
      else (get_previous js (seekToTime js (T - 600))).2)).1
      = js[firstAtOrAfter js (T - 600)]? := by
    cases fault with
    | true => simpa using get_next_loc js (firstAtOrAfter js (T - 600))
    | false => simpa using stepback_next js (firstAtOrAfter js (T - 600))
  refine ⟨_, startupSeek_ok js T 600 fault, hfr, ?_, ?_⟩
  · rintro ⟨x, hx, htx⟩
    have hex : ∃ y ∈ js, (fun y => decide (T - 600 ≤ y)) y = true :=
      ⟨x, hx, decide_eq_true htx⟩
    have hlt : js.findIdx (fun y => decide (T - 600 ≤ y)) < js.length :=
      List.findIdx_lt_length_of_exists hex
    have hlt2 : firstAtOrAfter js (T - 600) < js.length := hlt
    refine ⟨js.get ⟨firstAtOrAfter js (T - 600), hlt2⟩, ?_, ?_, ?_, ?_⟩
    · rw [hfr]
      simp [List.getElem?_eq_getElem hlt2, List.get_eq_getElem]
    · exact List.get_mem js _ hlt2
    · have hp := @List.findIdx_getElem _ (fun y => decide (T - 600 ≤ y)) js hlt
      simpa [firstAtOrAfter, List.get_eq_getElem] using of_decide_eq_true hp
    · intro y hy hty
      obtain ⟨j, hj, rfl⟩ := List.mem_iff_getElem.mp hy
      rcases Nat.lt_or_ge j (firstAtOrAfter js (T - 600)) with hlt3 | hge
      · exfalso
        have := List.not_of_lt_findIdx hlt3
        simp only [decide_eq_false_iff_not] at this
        exact this hty
      · rcases Nat.eq_or_lt_of_le hge with heq | hlt4
        · simp [List.get_eq_getElem, heq]
        · have hpw := List.pairwise_iff_getElem.mp hs _ _ hlt2 hj hlt4
          simpa [List.get_eq_getElem] using hpw
  · intro hempty
    subst hempty
    simpa using hfr

/-- Witness for C8 at the sorted journal `[3, 10, 50]` with `T = 609` (so the
seek time is 9 and the earliest record at or after it is 10). -/
theorem startup_seek_first_read_witness :
    List.Sorted (· ≤ ·) [3, 10, 50]
    ∧ ∃ p, startupSeek [3, 10, 50] 609 600 false = Except.ok p
      ∧ (get_next [3, 10, 50] p).1 = [3, 10, 50][firstAtOrAfter [3, 10, 50] (609 - 600)]?
      ∧ ((∃ x ∈ [3, 10, 50], 609 - 600 ≤ x) →
          ∃ r, (get_next [3, 10, 50] p).1 = some r ∧ r ∈ [3, 10, 50] ∧ 609 - 600 ≤ r
            ∧ ∀ x ∈ [3, 10, 50], 609 - 600 ≤ x → r ≤ x)
      ∧ (([3, 10, 50] : List Nat) = [] → (get_next [3, 10, 50] p).1 = none) :=
  ⟨by decide, startup_seek_first_read [3, 10, 50] 609 false (by decide)⟩
